import Mathlib

/-!
Shallow embedding of `src/main.py` (bs4_parser_pep): a four-mode
documentation scraper.  Each mode handler (`whats_new`, `latest_versions`,
`download`, `pep`) is translated into a Lean function over an abstract
"page world": HTML pages are records holding exactly the fields the
handler reads, an HTTP session is an oracle `String → Option page`
(`none` models a transport failure, mirroring `get_response`), and the
fatal exceptions (`find_tag`'s not-found error, Python `AttributeError`,
and the explicit `raise` in `latest_versions`) are the `Except.error`
branch of the return type.
-/

namespace BsParser

/-- Modelled from the spec: `MAIN_DOC_URL` is a fixed constant in
`constants.py`, which is not under `src/`; the spec only says it is the
fixed base documentation URL. -/
def MAIN_DOC_URL : String := "https://docs.python.org/3/"

/-- Modelled from the spec: `PEP_URL` is a fixed constant in
`constants.py`, which is not under `src/`. -/
def PEP_URL : String := "https://peps.python.org/"

/-- Modelled from the spec: `get_response` (in `utils.py`, not under
`src/`) issues a GET and on any transport failure logs and returns
`None`; the session is the oracle `fetch`. -/
def get_response {α : Type} (fetch : String → Option α) (url : String) : Option α :=
  fetch url

/-- Modelled from the spec: `find_tag` (in `utils.py`, not under `src/`)
returns the first matching tag, and when none exists it fails fatally
with an error naming the tag sought.  Pages carry each `find_tag` query
result as an `Option` field (`none` = no matching tag); `find_tag` lifts
it into `Except`, the fatal path. -/
def find_tag {α : Type} (result : Option α) : Except String α :=
  match result with
  | Option.some a => Except.ok a
  | Option.none => Except.error "ParserFindTagException"

/-- Python attribute access on the result of a bs4 `.find` /
`.find_next_sibling` that may be `None`: `None.attr` raises
`AttributeError`, which nothing in `main.py` catches. -/
def attr_of {α : Type} (result : Option α) : Except String α :=
  match result with
  | Option.some a => Except.ok a
  | Option.none => Except.error "AttributeError"

/-- Python's `text.replace("\n", " ")`: the pattern is the single
character `"\n"`, so the replacement maps each newline character to a
space. -/
def collapseNl (s : String) : String :=
  String.mk (s.toList.map (fun c => if c = '\n' then ' ' else c))

/-- Helper for `splitOnChar`: `acc` holds the current segment's
characters in reverse. -/
def splitOnCharAux (c : Char) : List Char → List Char → List String
  | [], acc => [String.mk acc.reverse]
  | x :: xs, acc =>
    if x = c then String.mk acc.reverse :: splitOnCharAux c xs []
    else splitOnCharAux c xs (x :: acc)

/-- Python's `s.split("/")` for the single-character separator used at
line 96: split at every occurrence of the character, keeping empty
segments. -/
def splitOnChar (c : Char) (s : String) : List String :=
  splitOnCharAux c s.toList []

/-- A cell of an output row: Python rows are tuples mixing strings and
ints (e.g. `("Total", total)`), so a cell is a string or a number. -/
inductive Cell where
  | str (s : String)
  | nat (n : Nat)
deriving DecidableEq, Repr

/-! ## PEP aggregation handler (`pep`, main.py lines 109-153) -/

/-- `<dl class="rfc2822 field-list simple">` of a PEP detail page:
`statusDd` is the text of `dl_tag.find(string="Status").parent
.find_next_sibling("dd")`; `none` models a missing "Status" label or a
missing `dd` sibling (Python `AttributeError`). -/
structure PepDl where
  statusDd : Option String
deriving Repr

/-- A numeric `<td>` cell of the numerical index: `aHref` is the `href`
of its first `<a>` (`none` = no `<a>`, a fatal `find_tag` case). -/
structure PepCell where
  aHref : Option String
deriving Repr

/-- The `<section id="numerical-index">`: `tbody` holds the result of
`find_all("td", string=re.compile(r"^\d+$"))` on the `tbody` tag — the
numeric cells in document order; `none` models a missing `tbody`. -/
structure PepSection where
  tbody : Option (List PepCell)
deriving Repr

/-- A fetched page as the pep handler reads it: the index query and the
detail-page query (the same soup is probed differently per URL). -/
structure PepPage where
  tableIndex : Option PepSection
  dl : Option PepDl
deriving Repr

/-- `collections.Counter(results).items()`: pairs (status, count) in
order of first occurrence, with `count` the number of occurrences.
`firstOccs` is the list of distinct statuses in first-occurrence
order (structural recursion: keep the head, drop its later
duplicates from the recursive result). -/
def firstOccs : List String → List String
  | [] => []
  | x :: xs => x :: (firstOccs xs).filter (fun y => y ≠ x)

def counterItems (results : List String) : List (String × Nat) :=
  (firstOccs results).map (fun s => (s, results.count s))

/-- The mismatch message of lines 145-147 (an f-string in the source). -/
def mismatchMsg (status : String) : String :=
  "Статус не совпал:\nСтатус в карточке: " ++ status ++ "\n"

/-- One iteration of the validation loop (lines 141-150), acting on
the accumulated (resulting_table, total, log messages).  The flattening
of `EXPECTED_STATUS.values()` (lines 142-143) happens inside the loop
body, as in the source. -/
def pepStep (EXPECTED_STATUS : List (String × List String))
    (st : List (Cell × Cell) × Nat × List String) (p : String × Nat) :
    List (Cell × Cell) × Nat × List String :=
  let expected_statuses := (EXPECTED_STATUS.map Prod.snd).flatten
  if expected_statuses.contains p.1 then
    (st.1 ++ [(Cell.str p.1, Cell.nat p.2)], st.2.1 + p.2, st.2.2)
  else
    (st.1, st.2.1, st.2.2 ++ [mismatchMsg p.1])

/-- Lines 137-152: the tally-validation pass.  Returns the resulting
table together with the list of mismatch log messages emitted by
`logging.info` for statuses absent from the flattened registry. -/
def pepTable (EXPECTED_STATUS : List (String × List String))
    (results : List String) : List (Cell × Cell) × List String :=
  let fin := (counterItems results).foldl (pepStep EXPECTED_STATUS)
    ([(Cell.str "Status", Cell.str "Quantity")], 0, [])
  (fin.1 ++ [(Cell.str "Total", Cell.nat fin.2.1)], fin.2.2)

/-- Lines 125-135: the detail-page loop.  For each numeric cell, find
its `<a>` (fatal if absent), resolve the link, fetch it (`None` →
`continue`), find the field list `dl` (fatal if absent), and read the
status text (Python `AttributeError` if the label or sibling is
absent). -/
def pepLoop (fetch : String → Option PepPage)
    (urljoin : String → String → String) :
    List PepCell → List String → Except String (List String)
  | [], acc => Except.ok acc
  | tag :: rest, acc => do
    let a_tag ← find_tag tag.aHref
    let pep_card_url := urljoin PEP_URL a_tag
    match get_response fetch pep_card_url with
    | Option.none => pepLoop fetch urljoin rest acc
    | Option.some soup => do
      let dl_tag ← find_tag soup.dl
      let status_pep_card ← attr_of dl_tag.statusDd
      pepLoop fetch urljoin rest (acc ++ [status_pep_card])

/-- `pep(session)` (lines 109-153).  `Except.error` is an uncaught
exception aborting the run; `Except.ok none` is the early `return`
when the index fetch fails; otherwise the table, paired with the
mismatch log messages. -/
def pep (EXPECTED_STATUS : List (String × List String))
    (fetch : String → Option PepPage)
    (urljoin : String → String → String) :
    Except String (Option (List (Cell × Cell) × List String)) :=
  match get_response fetch PEP_URL with
  | Option.none => Except.ok Option.none
  | Option.some soup => do
    let table_index ← find_tag soup.tableIndex
    let table_tag ← find_tag table_index.tbody
    let results ← pepLoop fetch urljoin table_tag []
    Except.ok (Option.some (pepTable EXPECTED_STATUS results))

/-! ### Observers used to state properties of `pep` -/

/-- The flattened expected-status registry of lines 142-143. -/
def flatStatuses (EXPECTED_STATUS : List (String × List String)) : List String :=
  (EXPECTED_STATUS.map Prod.snd).flatten

/-- The counter items whose status is in the flattened registry. -/
def acceptedItems (EXPECTED_STATUS : List (String × List String))
    (results : List String) : List (String × Nat) :=
  (counterItems results).filter
    (fun p => (flatStatuses EXPECTED_STATUS).contains p.1)

/-- The per-status rows appended by the validation loop. -/
def statusRows (EXPECTED_STATUS : List (String × List String))
    (results : List String) : List (Cell × Cell) :=
  (acceptedItems EXPECTED_STATUS results).map
    (fun p => (Cell.str p.1, Cell.nat p.2))

/-- The final value of `total`. -/
def pepTotal (EXPECTED_STATUS : List (String × List String))
    (results : List String) : Nat :=
  ((acceptedItems EXPECTED_STATUS results).map Prod.snd).sum

/-- The numeric count carried by a table row (0 on the header row,
whose cells are both strings). -/
def rowCount (r : Cell × Cell) : Nat :=
  match r.2 with
  | Cell.nat n => n
  | Cell.str _ => 0

/-- The mismatch log messages, in loop order. -/
def mismatchLogs (EXPECTED_STATUS : List (String × List String))
    (results : List String) : List String :=
  (((counterItems results).filter
      (fun p => !(flatStatuses EXPECTED_STATUS).contains p.1)).map
    (fun p => mismatchMsg p.1))

/-- What one loop iteration of `pepLoop` extracts from a numeric cell:
`none` when the cell's detail page fails to fetch (the `continue`
branch), the extracted status otherwise.  Only meaningful on cells
whose structural queries all succeed. -/
def cellStatus (fetch : String → Option PepPage)
    (urljoin : String → String → String) (c : PepCell) : Option String :=
  match c.aHref with
  | Option.none => Option.none
  | Option.some h =>
    match fetch (urljoin PEP_URL h) with
    | Option.none => Option.none
    | Option.some p =>
      match p.dl with
      | Option.none => Option.none
      | Option.some d => d.statusDd

/-- A numeric cell is structurally well-formed for `pepLoop`: it has an
`<a>`, and whenever its detail page fetches, the page has the `dl`
field list with a readable status. -/
def cellOk (fetch : String → Option PepPage)
    (urljoin : String → String → String) (c : PepCell) : Bool :=
  match c.aHref with
  | Option.none => false
  | Option.some h =>
    match fetch (urljoin PEP_URL h) with
    | Option.none => true
    | Option.some p =>
      match p.dl with
      | Option.none => false
      | Option.some d => d.statusDd.isSome

/-! ## What's-new handler (`whats_new`, main.py lines 16-45) -/

/-- A `li.toctree-l1` section of the overview: `aHref` is the `href` of
its first `<a>` (`none` = no `<a>`, a fatal `find_tag` case). -/
structure WnSection where
  aHref : Option String
deriving Repr

/-- `<div class="toctree-wrapper">`: its `li.toctree-l1` list. -/
structure WnMainDiv where
  divWithUl : Option (List WnSection)
deriving Repr

/-- A fetched page as `whats_new` reads it: the overview query
(`section#what-s-new-in-python`) and the article queries (first `h1`
text and first `dl` text); `none` = no such tag (fatal `find_tag`). -/
structure WnPage where
  mainDiv : Option WnMainDiv
  h1 : Option String
  dl : Option String
deriving Repr

/-- Lines 32-44: the article loop.  For each section, find its `<a>`
(fatal if absent), resolve the link, fetch it (`None` → `continue`),
find `h1` and `dl` (fatal if absent), collapse newlines in the `dl`
text, and append the row. -/
def whatsNewLoop (fetch : String → Option WnPage)
    (urljoin : String → String → String) (whats_new_url : String) :
    List WnSection → List (String × String × String) →
    Except String (List (String × String × String))
  | [], result => Except.ok result
  | sec :: rest, result => do
    let version_a_tag ← find_tag sec.aHref
    let version_link := urljoin whats_new_url version_a_tag
    match get_response fetch version_link with
    | Option.none => whatsNewLoop fetch urljoin whats_new_url rest result
    | Option.some soup => do
      let h1 ← find_tag soup.h1
      let dl ← find_tag soup.dl
      let dl_text := collapseNl dl
      whatsNewLoop fetch urljoin whats_new_url rest
        (result ++ [(version_link, h1, dl_text)])

/-- `whats_new(session)` (lines 16-45). -/
def whats_new (fetch : String → Option WnPage)
    (urljoin : String → String → String) :
    Except String (Option (List (String × String × String))) :=
  let whats_new_url := urljoin MAIN_DOC_URL "whatsnew/"
  match get_response fetch whats_new_url with
  | Option.none => Except.ok Option.none
  | Option.some soup => do
    let main_div ← find_tag soup.mainDiv
    let sections_by_python ← find_tag main_div.divWithUl
    let result ← whatsNewLoop fetch urljoin whats_new_url sections_by_python
      [("Ссылка на статью", "Заголовок", "Редактор, Автор")]
    Except.ok (Option.some result)

/-- What one iteration of the article loop produces from a section:
`none` when the article page fails to fetch (the `continue` branch),
the row otherwise.  Only meaningful on structurally well-formed
sections. -/
def articleRow (fetch : String → Option WnPage)
    (urljoin : String → String → String) (whats_new_url : String)
    (sec : WnSection) : Option (String × String × String) :=
  match sec.aHref with
  | Option.none => Option.none
  | Option.some h =>
    match fetch (urljoin whats_new_url h) with
    | Option.none => Option.none
    | Option.some p =>
      match p.h1, p.dl with
      | Option.some h1, Option.some dl =>
        Option.some (urljoin whats_new_url h, h1, collapseNl dl)
      | _, _ => Option.none

/-- A section is structurally well-formed for the article loop: it has
an `<a>`, and whenever its article page fetches, the page has an `h1`
and a `dl`. -/
def secOk (fetch : String → Option WnPage)
    (urljoin : String → String → String) (whats_new_url : String)
    (sec : WnSection) : Bool :=
  match sec.aHref with
  | Option.none => false
  | Option.some h =>
    match fetch (urljoin whats_new_url h) with
    | Option.none => true
    | Option.some p => p.h1.isSome && p.dl.isSome

/-! ## Latest-versions handler (`latest_versions`, main.py lines 48-80)

The regex `r"Python (?P<version>\d\.\d+) \((?P<status>.*)\)"` applied
via `re.search` is modelled by a hand-rolled matcher with the same
semantics: leftmost match position; `\d+` is maximal-munch (no
backtracking is needed as the following character `" "` is not a
digit); `.*` is greedy over non-newline characters, so the status group
ends at the last `')'` on the line. -/

/-- An `<a>` tag of a sidebar list: its `href` attribute and visible
text. -/
structure ATag where
  href : String
  text : String
deriving Repr

/-- A sidebar `<ul>`: its full text (used for the `"All versions"`
membership test) and its `<a>` descendants in document order. -/
structure SidebarUl where
  text : String
  aTags : List ATag
deriving Repr

/-- The main page as `latest_versions` reads it: the
`div.sphinxsidebarwrapper` query, carrying its `<ul>` list. -/
structure MainPage where
  sidebar : Option (List SidebarUl)
deriving Repr

/-- Drop an exact prefix, or fail. -/
def dropPrefixChars : List Char → List Char → Option (List Char)
  | [], s => Option.some s
  | _ :: _, [] => Option.none
  | p :: ps, c :: cs => if c = p then dropPrefixChars ps cs else Option.none

/-- The greedy `.*\)` step: keep everything before the last `')'` of
the line, or fail when the line has no `')'`. -/
def statusOf (line : List Char) : Option (List Char) :=
  match line.reverse.dropWhile (fun c => c ≠ ')') with
  | [] => Option.none
  | _ :: t => Option.some t.reverse

/-- Try to match `Python \d\.\d+ \(.*\)` starting exactly at the head
of `s`; on success return the `version` and `status` groups. -/
def matchPythonAt (s : List Char) : Option (String × String) := do
  let r1 ← dropPrefixChars "Python ".toList s
  match r1 with
  | [] => Option.none
  | d :: r2 =>
    if d.isDigit then
      match r2 with
      | '.' :: r3 =>
        let ds := r3.takeWhile Char.isDigit
        let r4 := r3.dropWhile Char.isDigit
        if ds.isEmpty then Option.none
        else do
          let r5 ← dropPrefixChars " (".toList r4
          let line := r5.takeWhile (fun c => c ≠ '\n')
          let st ← statusOf line
          Option.some (String.mk (d :: '.' :: ds), String.mk st)
      | _ => Option.none
    else Option.none

/-- `re.search(pattern, text)`: try each start position left to
right. -/
def searchPython : List Char → Option (String × String)
  | [] => Option.none
  | c :: cs =>
    match matchPythonAt (c :: cs) with
    | Option.some r => Option.some r
    | Option.none => searchPython cs

/-- Python's `in` on strings: `p` occurs as a contiguous substring. -/
def hasInfix (p : List Char) : List Char → Bool
  | [] => p.isEmpty
  | c :: cs => p.isPrefixOf (c :: cs) || hasInfix p cs

/-- Lines 61-66: the `for ... else` scan picking the first `<ul>` whose
text contains `"All versions"`; the `else` branch raises. -/
def findAllVersionsUl : List SidebarUl → Except String (List ATag)
  | [] => Except.error "Ничего не нашлось"
  | ul :: rest =>
    if hasInfix "All versions".toList ul.text.toList then
      Except.ok ul.aTags
    else findAllVersionsUl rest

/-- Lines 70-79: one output row per `<a>` tag. -/
def versionRow (a_tag : ATag) : String × String × String :=
  match searchPython a_tag.text.toList with
  | Option.some vs => (a_tag.href, vs.1, vs.2)
  | Option.none => (a_tag.href, a_tag.text, "")

/-- `latest_versions(session)` (lines 48-80).  The second component is
the trace of URLs passed to `get_response`, in order, so that the
number of HTTP requests is part of the model. -/
def latest_versions (fetch : String → Option MainPage) :
    Except String (Option (List (String × String × String))) × List String :=
  (match get_response fetch MAIN_DOC_URL with
   | Option.none => Except.ok Option.none
   | Option.some soup => do
     let sidebar ← find_tag soup.sidebar
     let a_tags ← findAllVersionsUl sidebar
     Except.ok (Option.some
       (("Ссылка на документацию", "Версия", "Статус") ::
         a_tags.map versionRow)),
   [MAIN_DOC_URL])

/-! ## Download handler (`download`, main.py lines 83-106) -/

/-- `<table class="docutils">` of the downloads page: `pdfA4Href` is
the `href` of the first `<a>` whose `href` matches
`re.compile(r".+pdf-a4\.zip$")`; `none` = no such `<a>` (fatal
`find_tag`). -/
structure DocutilsTable where
  pdfA4Href : Option String
deriving Repr

/-- The parsed downloads page: the `table.docutils` query. -/
structure DownloadsPage where
  tableTag : Option DocutilsTable
deriving Repr

/-- A fetched response as `download` reads it: the parsed HTML (for the
downloads page) and the raw body bytes (for the archive). -/
structure DlResponse where
  soup : DownloadsPage
  content : List Nat
deriving Repr

/-- The handler's file-system effects: whether
`downloads_dir.mkdir(exist_ok=True)` ran, and the `(filename, bytes)`
files written under the downloads directory. -/
structure DownloadState where
  dirCreated : Bool
  files : List (String × List Nat)
deriving Repr

/-- `download(session)` (lines 83-106).  Returns the value the Python
function returns (always `None`, i.e. no rows) together with the
file-system effects. -/
def download (fetch : String → Option DlResponse)
    (urljoin : String → String → String) :
    Except String (Option (List (String × String)) × DownloadState) :=
  let downloads_url := urljoin MAIN_DOC_URL "download.html"
  match get_response fetch downloads_url with
  | Option.none => Except.ok (Option.none, ⟨false, []⟩)
  | Option.some response => do
    let table_tag ← find_tag response.soup.tableTag
    let pdf_a4_link ← find_tag table_tag.pdfA4Href
    let archive_url := urljoin downloads_url pdf_a4_link
    let filename := (splitOnChar '/' archive_url).getLastD ""
    -- downloads_dir.mkdir(exist_ok=True) happens before the archive fetch
    match get_response fetch archive_url with
    | Option.none => Except.ok (Option.none, ⟨true, []⟩)
    | Option.some response2 =>
      Except.ok (Option.none, ⟨true, [(filename, response2.content)]⟩)

/-! ## Concrete scenario environments

Instantiations of the abstract session oracle and of `urljoin` used in
the concrete scenarios of the spec.  `urljoin` itself is a `urllib`
library function, so the handlers take it as a parameter; the concrete
scenarios pick simple resolutions. -/

/-- Resolution by concatenation (base has a trailing slash and hrefs
are relative, the common case for these pages). -/
def ujConcat : String → String → String := fun base rel => base ++ rel

/-- Resolution against the fixed documentation root (hrefs relative to
the site root). -/
def ujRoot : String → String → String :=
  fun _ rel => "https://docs.python.org/3/" ++ rel

/-- The spec's concrete pep scenario: a numerical index whose three
numeric cells (PEPs 1, 8, 20) link to detail pages with statuses
`Active`, `Final`, `Final`. -/
def pepFetchC1 : String → Option PepPage := fun url =>
  if url = "https://peps.python.org/" then
    Option.some ⟨Option.some ⟨Option.some
      [⟨Option.some "pep-0001/"⟩, ⟨Option.some "pep-0008/"⟩,
        ⟨Option.some "pep-0020/"⟩]⟩, Option.none⟩
  else if url = "https://peps.python.org/pep-0001/" then
    Option.some ⟨Option.none, Option.some ⟨Option.some "Active"⟩⟩
  else if url = "https://peps.python.org/pep-0008/" then
    Option.some ⟨Option.none, Option.some ⟨Option.some "Final"⟩⟩
  else if url = "https://peps.python.org/pep-0020/" then
    Option.some ⟨Option.none, Option.some ⟨Option.some "Final"⟩⟩
  else Option.none

/-- The registry of the spec's concrete pep scenario, containing both
`Active` and `Final`. -/
def expectedC1 : List (String × List String) :=
  [("A", ["Active"]), ("F", ["Final"])]

/-- A pep index whose only detail page fails to fetch. -/
def pepFetchC9 : String → Option PepPage := fun url =>
  if url = "https://peps.python.org/" then
    Option.some ⟨Option.some ⟨Option.some [⟨Option.some "pep-0001/"⟩]⟩,
      Option.none⟩
  else Option.none

/-- A what's-new overview with three articles; the middle article's
fetch fails, the other two succeed. -/
def wnFetchC3 : String → Option WnPage := fun url =>
  if url = "https://docs.python.org/3/whatsnew/" then
    Option.some ⟨Option.some ⟨Option.some
      [⟨Option.some "3.10.html"⟩, ⟨Option.some "3.11.html"⟩,
        ⟨Option.some "3.12.html"⟩]⟩, Option.none, Option.none⟩
  else if url = "https://docs.python.org/3/whatsnew/3.10.html" then
    Option.some ⟨Option.none, Option.some "Whatʼs New In Python 3.10",
      Option.some "Editor\nPablo"⟩
  else if url = "https://docs.python.org/3/whatsnew/3.12.html" then
    Option.some ⟨Option.none, Option.some "Whatʼs New In Python 3.12",
      Option.some "Editor Adam"⟩
  else Option.none

/-- A what's-new overview with one article whose page fetches but has
no `h1` tag (a missing-structure case inside the loop body). -/
def wnFetchC5 : String → Option WnPage := fun url =>
  if url = "https://docs.python.org/3/whatsnew/" then
    Option.some ⟨Option.some ⟨Option.some [⟨Option.some "3.11.html"⟩]⟩,
      Option.none, Option.none⟩
  else if url = "https://docs.python.org/3/whatsnew/3.11.html" then
    Option.some ⟨Option.none, Option.none, Option.some "Editor Pablo"⟩
  else Option.none

/-- A main page whose sidebar has two `<ul>` lists, neither containing
the `"All versions"` marker. -/
def lvFetchC6 : String → Option MainPage := fun url =>
  if url = "https://docs.python.org/3/" then
    Option.some ⟨Option.some
      [⟨"Docs by version", [⟨"https://docs.python.org/3.12/", "Python 3.12 (stable)"⟩]⟩,
        ⟨"Other resources", []⟩]⟩
  else Option.none

/-- A main page with a well-formed `"All versions"` sidebar list of
three links: two matching the `Python X.Y (status)` pattern and one
(`All versions`) not matching. -/
def lvFetchC7 : String → Option MainPage := fun url =>
  if url = "https://docs.python.org/3/" then
    Option.some ⟨Option.some
      [⟨"Docs by version Python 3.12 (stable) All versions",
        [⟨"https://docs.python.org/3.12/", "Python 3.12 (stable)"⟩,
          ⟨"https://docs.python.org/3.9/", "Python 3.9 (security-fixes)"⟩,
          ⟨"https://www.python.org/doc/versions/", "All versions"⟩]⟩]⟩
  else Option.none

/-- The spec's concrete download scenario: a downloads page whose
table's matching link points (after resolution) to
`.../archive/archive-3.12.pdf-a4.zip`, and the archive fetch succeeds
with body bytes `[80, 75, 3, 4]`. -/
def dlFetchC8 : String → Option DlResponse := fun url =>
  if url = "https://docs.python.org/3/download.html" then
    Option.some ⟨⟨Option.some ⟨Option.some "archive/archive-3.12.pdf-a4.zip"⟩⟩, []⟩
  else if url = "https://docs.python.org/3/archive/archive-3.12.pdf-a4.zip" then
    Option.some ⟨⟨Option.none⟩, [80, 75, 3, 4]⟩
  else Option.none

/-- Same downloads page, but the archive fetch fails. -/
def dlFetchC10 : String → Option DlResponse := fun url =>
  if url = "https://docs.python.org/3/download.html" then
    Option.some ⟨⟨Option.some ⟨Option.some "archive/archive-3.12.pdf-a4.zip"⟩⟩, []⟩
  else Option.none

/-! ## Lemmas about the pep validation pass -/

theorem pepStep_foldl (E : List (String × List String)) :
    ∀ (items : List (String × Nat))
      (rows0 : List (Cell × Cell)) (t0 : Nat) (logs0 : List String),
    items.foldl (pepStep E) (rows0, t0, logs0) =
      (rows0 ++ (items.filter
          (fun p => (flatStatuses E).contains p.1)).map
          (fun p => (Cell.str p.1, Cell.nat p.2)),
        t0 + ((items.filter
          (fun p => (flatStatuses E).contains p.1)).map Prod.snd).sum,
        logs0 ++ (items.filter
          (fun p => !(flatStatuses E).contains p.1)).map
          (fun p => mismatchMsg p.1)) := by
  intro items
  induction items with
  | nil => intro rows0 t0 logs0; simp
  | cons p rest ih =>
    intro rows0 t0 logs0
    by_cases hm : p.1 ∈ (E.map Prod.snd).flatten
    · simp [List.foldl_cons, pepStep, flatStatuses, hm, ih,
        List.filter_cons, List.append_assoc, Nat.add_assoc]
    · simp [List.foldl_cons, pepStep, flatStatuses, hm, ih,
        List.filter_cons, List.append_assoc]

theorem pepTable_eq (E : List (String × List String)) (results : List String) :
    pepTable E results =
      ((Cell.str "Status", Cell.str "Quantity") :: statusRows E results ++
        [(Cell.str "Total", Cell.nat (pepTotal E results))],
       mismatchLogs E results) := by
  simp [pepTable, pepStep_foldl, statusRows, acceptedItems, pepTotal,
    mismatchLogs]

theorem mem_firstOccs : ∀ (l : List String) (a : String),
    a ∈ firstOccs l ↔ a ∈ l := by
  intro l
  induction l with
  | nil => intro a; rw [firstOccs]
  | cons x xs ih =>
    intro a
    rw [firstOccs]
    simp only [List.mem_cons, List.mem_filter, ih, decide_eq_true_eq]
    constructor
    · rintro (rfl | ⟨hmem, _⟩)
      · exact Or.inl rfl
      · exact Or.inr hmem
    · rintro (rfl | hmem)
      · exact Or.inl rfl
      · by_cases hax : a = x
        · exact Or.inl hax
        · exact Or.inr ⟨hmem, hax⟩

theorem firstOccs_nodup : ∀ l : List String, (firstOccs l).Nodup := by
  intro l
  induction l with
  | nil => rw [firstOccs]; exact List.nodup_nil
  | cons x xs ih =>
    rw [firstOccs]
    refine List.nodup_cons.mpr ⟨?_, ih.filter _⟩
    intro hmem
    rw [List.mem_filter] at hmem
    simp at hmem

theorem firstOccs_perm_dedup (l : List String) :
    List.Perm (firstOccs l) l.dedup := by
  rw [List.perm_ext_iff_of_nodup (firstOccs_nodup l) l.nodup_dedup]
  intro a
  rw [mem_firstOccs, List.mem_dedup]

theorem pepTotal_eq_length (E : List (String × List String))
    (results : List String) :
    pepTotal E results =
      (results.filter (fun s => (flatStatuses E).contains s)).length := by
  have key := List.sum_map_count_dedup_filter_eq_countP
    (fun s => (flatStatuses E).contains s) results
  have hperm := ((firstOccs_perm_dedup results).filter
    (fun s => (flatStatuses E).contains s)).map (fun s => results.count s)
  have hsum := hperm.sum_eq
  rw [List.countP_eq_length_filter] at key
  unfold pepTotal acceptedItems counterItems
  rw [List.filter_map, List.map_map, ← key, ← hsum]
  rfl

theorem mem_counterItems (l : List String) (s : String) (hs : s ∈ l) :
    (s, l.count s) ∈ counterItems l := by
  unfold counterItems
  exact List.mem_map_of_mem _ ((mem_firstOccs l s).mpr hs)

theorem firstOccs_filter_eq (l : List String) (s : String) :
    (firstOccs l).filter (fun x => x = s) =
      if s ∈ l then [s] else [] := by
  have hrepl := List.filter_eq (firstOccs l) s
  have hcount : (firstOccs l).count s = if s ∈ l then 1 else 0 := by
    rw [List.count_eq_of_nodup (firstOccs_nodup l)]
    by_cases hm : s ∈ l
    · rw [if_pos ((mem_firstOccs l s).mpr hm), if_pos hm]
    · rw [if_neg (fun hx => hm ((mem_firstOccs l s).mp hx)), if_neg hm]
  rw [hrepl, hcount]
  by_cases hm : s ∈ l
  · rw [if_pos hm, if_pos hm]; rfl
  · rw [if_neg hm, if_neg hm]; rfl

theorem counterItems_filter_fst (l : List String) (s : String) :
    (counterItems l).filter (fun p => p.1 = s) =
      if s ∈ l then [(s, l.count s)] else [] := by
  unfold counterItems
  rw [List.filter_map]
  have : ((fun p : String × Nat => decide (p.1 = s)) ∘
      (fun x => (x, l.count x))) = fun x => decide (x = s) := rfl
  rw [this, firstOccs_filter_eq]
  by_cases hm : s ∈ l
  · rw [if_pos hm, if_pos hm]; rfl
  · rw [if_neg hm, if_neg hm]; rfl

/-! ## Lemmas about the pep detail-page loop -/

theorem pepLoop_eq (fetch : String → Option PepPage)
    (urljoin : String → String → String) :
    ∀ (cells : List PepCell) (acc : List String),
    (∀ c ∈ cells, cellOk fetch urljoin c = true) →
    pepLoop fetch urljoin cells acc =
      Except.ok (acc ++ cells.filterMap (cellStatus fetch urljoin)) := by
  intro cells
  induction cells with
  | nil => intro acc _; simp [pepLoop]
  | cons c rest ih =>
    intro acc hok
    have hc := hok c (List.mem_cons_self c rest)
    rw [pepLoop]
    cases hhref : c.aHref with
    | none =>
      simp only [cellOk, hhref] at hc
      exact Bool.noConfusion hc
    | some h =>
      simp only [cellOk, hhref] at hc
      cases hf : fetch (urljoin PEP_URL h) with
      | none =>
        have hcell : cellStatus fetch urljoin c = Option.none := by
          simp [cellStatus, hhref, hf]
        simp only [hhref, find_tag, get_response, hf, Bind.bind, Except.bind]
        rw [ih acc (fun x hx => hok x (List.mem_cons_of_mem c hx))]
        simp [hcell]
      | some p =>
        simp only [hf] at hc
        cases hdl : p.dl with
        | none =>
          simp only [hdl] at hc
          exact Bool.noConfusion hc
        | some d =>
          simp only [hdl] at hc
          obtain ⟨s, hs⟩ := Option.isSome_iff_exists.mp hc
          have hcell : cellStatus fetch urljoin c = Option.some s := by
            simp [cellStatus, hhref, hf, hdl, hs]
          simp only [hhref, find_tag, get_response, hf, hdl, hs, attr_of,
            Bind.bind, Except.bind]
          rw [ih (acc ++ [s]) (fun x hx => hok x (List.mem_cons_of_mem c hx))]
          simp [hcell]

theorem pep_eq (E : List (String × List String))
    (fetch : String → Option PepPage) (urljoin : String → String → String)
    (page : PepPage) (sec : PepSection) (cells : List PepCell)
    (h1 : fetch PEP_URL = Option.some page)
    (h2 : page.tableIndex = Option.some sec)
    (h3 : sec.tbody = Option.some cells)
    (hok : ∀ c ∈ cells, cellOk fetch urljoin c = true) :
    pep E fetch urljoin =
      Except.ok (Option.some
        (pepTable E (cells.filterMap (cellStatus fetch urljoin)))) := by
  rw [pep]
  simp only [get_response, h1, h2, h3, find_tag, Bind.bind, Except.bind]
  rw [pepLoop_eq fetch urljoin cells [] hok]
  simp [Bind.bind, Except.bind]

theorem pep_ok_inv (E : List (String × List String))
    (fetch : String → Option PepPage) (urljoin : String → String → String)
    (x : List (Cell × Cell) × List String)
    (hx : pep E fetch urljoin = Except.ok (Option.some x)) :
    ∃ results, x = pepTable E results := by
  rw [pep] at hx
  cases hf : fetch PEP_URL with
  | none => simp [get_response, hf] at hx
  | some soup =>
    simp only [get_response, hf] at hx
    cases hti : soup.tableIndex with
    | none => simp [find_tag, hti, Bind.bind, Except.bind] at hx
    | some sec =>
      simp only [find_tag, hti, Bind.bind, Except.bind] at hx
      cases htb : sec.tbody with
      | none => simp [find_tag, htb, Bind.bind, Except.bind] at hx
      | some cells =>
        simp only [find_tag, htb, Bind.bind, Except.bind] at hx
        cases hloop : pepLoop fetch urljoin cells [] with
        | error e => rw [hloop] at hx; simp [Bind.bind, Except.bind] at hx
        | ok results =>
          rw [hloop] at hx
          simp only [Except.bind, pure, Except.pure, Except.ok.injEq,
            Option.some.injEq] at hx
          exact ⟨results, hx.symm⟩

/-! ## Lemmas about the what's-new article loop -/

theorem whatsNewLoop_eq (fetch : String → Option WnPage)
    (urljoin : String → String → String) (base : String) :
    ∀ (secs : List WnSection) (acc : List (String × String × String)),
    (∀ s ∈ secs, secOk fetch urljoin base s = true) →
    whatsNewLoop fetch urljoin base secs acc =
      Except.ok (acc ++ secs.filterMap (articleRow fetch urljoin base)) := by
  intro secs
  induction secs with
  | nil => intro acc _; simp [whatsNewLoop]
  | cons sec rest ih =>
    intro acc hok
    have hc := hok sec (List.mem_cons_self sec rest)
    rw [whatsNewLoop]
    cases hhref : sec.aHref with
    | none =>
      simp only [secOk, hhref] at hc
      exact Bool.noConfusion hc
    | some h =>
      simp only [secOk, hhref] at hc
      cases hf : fetch (urljoin base h) with
      | none =>
        have hrow : articleRow fetch urljoin base sec = Option.none := by
          simp [articleRow, hhref, hf]
        simp only [hhref, find_tag, get_response, hf, Bind.bind, Except.bind]
        rw [ih acc (fun x hx => hok x (List.mem_cons_of_mem sec hx))]
        simp [hrow]
      | some p =>
        simp only [hf, Bool.and_eq_true] at hc
        obtain ⟨a, ha⟩ := Option.isSome_iff_exists.mp hc.1
        obtain ⟨b, hb⟩ := Option.isSome_iff_exists.mp hc.2
        have hrow : articleRow fetch urljoin base sec =
            Option.some (urljoin base h, a, collapseNl b) := by
          simp [articleRow, hhref, hf, ha, hb]
        simp only [hhref, find_tag, get_response, hf, ha, hb, Bind.bind,
          Except.bind]
        rw [ih (acc ++ [(urljoin base h, a, collapseNl b)])
          (fun x hx => hok x (List.mem_cons_of_mem sec hx))]
        simp [hrow]

theorem whats_new_eq (fetch : String → Option WnPage)
    (urljoin : String → String → String)
    (page : WnPage) (md : WnMainDiv) (secs : List WnSection)
    (h1 : fetch (urljoin MAIN_DOC_URL "whatsnew/") = Option.some page)
    (h2 : page.mainDiv = Option.some md)
    (h3 : md.divWithUl = Option.some secs)
    (hok : ∀ s ∈ secs,
      secOk fetch urljoin (urljoin MAIN_DOC_URL "whatsnew/") s = true) :
    whats_new fetch urljoin =
      Except.ok (Option.some
        (("Ссылка на статью", "Заголовок", "Редактор, Автор") ::
          secs.filterMap
            (articleRow fetch urljoin (urljoin MAIN_DOC_URL "whatsnew/")))) := by
  rw [whats_new]
  simp only [get_response, h1, h2, h3, find_tag, Bind.bind, Except.bind]
  rw [whatsNewLoop_eq fetch urljoin _ secs _ hok]
  simp [Bind.bind, Except.bind]

/-! ## Lemmas about the latest-versions sidebar scan -/

theorem findAllVersionsUl_error :
    ∀ uls : List SidebarUl,
    (∀ ul ∈ uls, hasInfix "All versions".toList ul.text.toList = false) →
    findAllVersionsUl uls = Except.error "Ничего не нашлось" := by
  intro uls
  induction uls with
  | nil => intro _; rfl
  | cons ul rest ih =>
    intro hno
    rw [findAllVersionsUl]
    rw [hno ul (List.mem_cons_self ul rest)]
    exact ih (fun u hu => hno u (List.mem_cons_of_mem ul hu))

theorem findAllVersionsUl_first (pre : List SidebarUl) (ul : SidebarUl)
    (post : List SidebarUl)
    (hpre : ∀ u ∈ pre, hasInfix "All versions".toList u.text.toList = false)
    (hul : hasInfix "All versions".toList ul.text.toList = true) :
    findAllVersionsUl (pre ++ ul :: post) = Except.ok ul.aTags := by
  induction pre with
  | nil =>
    rw [List.nil_append, findAllVersionsUl, hul]
    simp
  | cons u rest ih =>
    rw [List.cons_append, findAllVersionsUl]
    rw [hpre u (List.mem_cons_self u rest)]
    exact ih (fun v hv => hpre v (List.mem_cons_of_mem u hv))

theorem latest_versions_ok_inv (fetch : String → Option MainPage)
    (rows : List (String × String × String))
    (h : (latest_versions fetch).1 = Except.ok (Option.some rows)) :
    ∃ a_tags : List ATag,
      rows = ("Ссылка на документацию", "Версия", "Статус") ::
        a_tags.map versionRow := by
  rw [latest_versions] at h
  cases hf : fetch MAIN_DOC_URL with
  | none => simp [get_response, hf] at h
  | some page =>
    simp only [get_response, hf] at h
    cases hs : page.sidebar with
    | none => simp [find_tag, hs, Bind.bind, Except.bind] at h
    | some uls =>
      simp only [find_tag, hs, Bind.bind, Except.bind] at h
      cases hv : findAllVersionsUl uls with
      | error e => rw [hv] at h; simp [Bind.bind, Except.bind] at h
      | ok a_tags =>
        rw [hv] at h
        simp only [Bind.bind, Except.bind, Except.ok.injEq,
          Option.some.injEq] at h
        exact ⟨a_tags, h.symm⟩

/-! ## Lemmas about the version/status regex model -/

theorem dropPrefixChars_append (p s : List Char) :
    dropPrefixChars p (p ++ s) = Option.some s := by
  induction p with
  | nil => rfl
  | cons c cs ih => simp [dropPrefixChars, ih]

theorem takeWhile_all_of {p : Char → Bool} :
    ∀ l : List Char, (∀ c ∈ l, p c = true) → l.takeWhile p = l := by
  intro l
  induction l with
  | nil => intro _; rfl
  | cons c cs ih =>
    intro hall
    simp [List.takeWhile_cons, hall c (List.mem_cons_self c cs),
      ih (fun x hx => hall x (List.mem_cons_of_mem c hx))]

theorem takeWhile_middle {p : Char → Bool} :
    ∀ (l : List Char) (y : Char) (r : List Char),
    (∀ c ∈ l, p c = true) → p y = false →
    (l ++ y :: r).takeWhile p = l ∧ (l ++ y :: r).dropWhile p = y :: r := by
  intro l
  induction l with
  | nil =>
    intro y r _ hy
    simp [List.takeWhile_cons, List.dropWhile_cons, hy]
  | cons c cs ih =>
    intro y r hall hy
    have hc := hall c (List.mem_cons_self c cs)
    have hrest := ih y r (fun x hx => hall x (List.mem_cons_of_mem c hx)) hy
    simp [List.takeWhile_cons, List.dropWhile_cons, hc, hrest.1, hrest.2]

theorem statusOf_concat (l : List Char) :
    statusOf (l ++ [')']) = Option.some l := by
  unfold statusOf
  have hrev : (l ++ [')']).reverse = ')' :: l.reverse := by simp
  rw [hrev, List.dropWhile_cons]
  simp

theorem matchPythonAt_canonical (d : Char) (ds : List Char) (st : List Char)
    (hd : d.isDigit = true) (hds : ds ≠ [])
    (hall : ∀ c ∈ ds, c.isDigit = true) (hnl : '\n' ∉ st) :
    matchPythonAt
        ("Python ".toList ++ d :: '.' :: (ds ++ ' ' :: '(' :: (st ++ [')']))) =
      Option.some (String.mk (d :: '.' :: ds), String.mk st) := by
  have hne : ds.isEmpty = false := by
    cases ds with
    | nil => exact absurd rfl hds
    | cons a l => rfl
  have hmid := takeWhile_middle (p := Char.isDigit) ds ' '
    ('(' :: (st ++ [')'])) hall (by decide)
  have hline : (st ++ [')']).takeWhile (fun c => c ≠ '\n') = st ++ [')'] := by
    refine takeWhile_all_of _ ?_
    intro c hc
    rcases List.mem_append.mp hc with hcs | hcp
    · simp only [decide_eq_true_eq]
      intro heq
      exact hnl (heq ▸ hcs)
    · simp only [List.mem_singleton] at hcp
      subst hcp
      decide
  unfold matchPythonAt
  rw [dropPrefixChars_append]
  simp only [Bind.bind, Option.bind, hd, if_true, hne, Bool.false_eq_true,
    if_false, hmid.1, hmid.2]
  have hdrop2 : dropPrefixChars " (".toList (' ' :: '(' :: (st ++ [')'])) =
      Option.some (st ++ [')']) := by
    simp [dropPrefixChars]
  rw [hdrop2]
  simp only [Option.bind, hline, statusOf_concat]

theorem searchPython_cons (c : Char) (cs : List Char) (r : String × String)
    (h : matchPythonAt (c :: cs) = Option.some r) :
    searchPython (c :: cs) = Option.some r := by
  rw [searchPython, h]

/-! ## Claim theorems -/

/-- C1: For the pep handler, the final ("Total", total) row's count
equals the sum of the counts of all accepted per-status rows, and
equals the number of extracted statuses that are members of the
flattened expected-status registry (and, via the pipeline conjunct,
the number of detail pages whose extracted status is a member); in the
concrete three-page scenario (statuses Active, Final, Final, registry
containing Active and Final) the returned table is exactly
[("Status","Quantity"), ("Active",1), ("Final",2), ("Total",3)]. -/
theorem claim_c1_pep_total :
    (∀ (E : List (String × List String)) (results : List String),
      pepTable E results =
        ((Cell.str "Status", Cell.str "Quantity") :: statusRows E results ++
          [(Cell.str "Total", Cell.nat (pepTotal E results))],
         mismatchLogs E results) ∧
      pepTotal E results = ((statusRows E results).map rowCount).sum ∧
      pepTotal E results =
        (results.filter (fun s => (flatStatuses E).contains s)).length) ∧
    (∀ (E : List (String × List String)) (fetch : String → Option PepPage)
      (urljoin : String → String → String) (page : PepPage)
      (sec : PepSection) (cells : List PepCell),
      fetch PEP_URL = Option.some page →
      page.tableIndex = Option.some sec →
      sec.tbody = Option.some cells →
      (∀ c ∈ cells, cellOk fetch urljoin c = true) →
      pep E fetch urljoin = Except.ok (Option.some
        (pepTable E (cells.filterMap (cellStatus fetch urljoin))))) ∧
    pep expectedC1 pepFetchC1 ujConcat =
      Except.ok (Option.some
        ([(Cell.str "Status", Cell.str "Quantity"),
          (Cell.str "Active", Cell.nat 1), (Cell.str "Final", Cell.nat 2),
          (Cell.str "Total", Cell.nat 3)], [])) := by
  refine ⟨?_, ?_, ?_⟩
  · intro E results
    refine ⟨pepTable_eq E results, ?_, pepTotal_eq_length E results⟩
    have hmap : (statusRows E results).map rowCount =
        (acceptedItems E results).map Prod.snd := by
      rw [statusRows, List.map_map]
      rfl
    rw [hmap]
    rfl
  · intro E fetch urljoin page sec cells h1 h2 h3 hok
    exact pep_eq E fetch urljoin page sec cells h1 h2 h3 hok
  · rfl

/-- Witness for C1: the pipeline conjunct applied to the concrete
three-page scenario, with every hypothesis discharged by computation. -/
theorem claim_c1_pep_total_witness :
    pep expectedC1 pepFetchC1 ujConcat =
      Except.ok (Option.some
        (pepTable expectedC1
          ([⟨Option.some "pep-0001/"⟩, ⟨Option.some "pep-0008/"⟩,
            ⟨Option.some "pep-0020/"⟩].filterMap
            (cellStatus pepFetchC1 ujConcat)))) :=
  claim_c1_pep_total.2.1 expectedC1 pepFetchC1 ujConcat
    ⟨Option.some ⟨Option.some
      [⟨Option.some "pep-0001/"⟩, ⟨Option.some "pep-0008/"⟩,
        ⟨Option.some "pep-0020/"⟩]⟩, Option.none⟩
    ⟨Option.some
      [⟨Option.some "pep-0001/"⟩, ⟨Option.some "pep-0008/"⟩,
        ⟨Option.some "pep-0020/"⟩]⟩
    [⟨Option.some "pep-0001/"⟩, ⟨Option.some "pep-0008/"⟩,
      ⟨Option.some "pep-0020/"⟩]
    rfl rfl rfl (by decide)

/-- C4: every tallied status absent from the flattened registry is
logged as a mismatch and has no per-status row (and its count is not in
the total, which counts only members); every member status appears as
exactly one (status, count) row with its tallied count contributing to
the total. -/
theorem claim_c4_pep_mismatch_filtering (E : List (String × List String))
    (results : List String) (s : String) (hmem : s ∈ results) :
    ((flatStatuses E).contains s = false →
      mismatchMsg s ∈ (pepTable E results).2 ∧
      (statusRows E results).filter (fun r => r.1 = Cell.str s) = []) ∧
    ((flatStatuses E).contains s = true →
      (statusRows E results).filter (fun r => r.1 = Cell.str s) =
        [(Cell.str s, Cell.nat (results.count s))]) ∧
    pepTotal E results =
      (results.filter (fun x => (flatStatuses E).contains x)).length := by
  have hrows : (statusRows E results).filter (fun r => r.1 = Cell.str s) =
      ((counterItems results).filter
        (fun p => ((flatStatuses E).contains p.1 && decide (p.1 = s)))).map
        (fun p => (Cell.str p.1, Cell.nat p.2)) := by
    rw [statusRows, acceptedItems, List.filter_map]
    have hpred : ((fun r : Cell × Cell => decide (r.1 = Cell.str s)) ∘
        (fun p : String × Nat => (Cell.str p.1, Cell.nat p.2))) =
        fun p : String × Nat => decide (p.1 = s) := by
      funext p
      simp [Function.comp, Cell.str.injEq]
    rw [hpred, List.filter_filter]
    congr 1
    apply List.filter_congr
    intro p _
    rw [Bool.and_comm]
  refine ⟨?_, ?_, pepTotal_eq_length E results⟩
  · intro hno
    constructor
    · rw [pepTable_eq]
      rw [mismatchLogs]
      refine List.mem_map.mpr ⟨(s, results.count s), ?_, rfl⟩
      refine List.mem_filter.mpr ⟨mem_counterItems results s hmem, ?_⟩
      rw [hno]
      rfl
    · rw [hrows]
      rw [List.filter_congr (q := fun p : String × Nat => false)]
      · simp
      · intro p hp
        by_cases hps : p.1 = s
        · have hs' : s ∉ flatStatuses E := by simpa using hno
          simp [hps, hs']
        · simp [hps]
  · intro hyes
    rw [hrows]
    have : ((counterItems results).filter
        (fun p => ((flatStatuses E).contains p.1 && decide (p.1 = s)))) =
        [(s, results.count s)] := by
      have hcomm : ((counterItems results).filter
          (fun p => ((flatStatuses E).contains p.1 && decide (p.1 = s)))) =
          ((counterItems results).filter (fun p => decide (p.1 = s))).filter
            (fun p => (flatStatuses E).contains p.1) := by
        rw [List.filter_filter]
      rw [hcomm, counterItems_filter_fst, if_pos hmem]
      have hs' : s ∈ flatStatuses E := by simpa using hyes
      simp [hs']
    rw [this]
    rfl

/-- Witness for C4: with statuses Active, Final, Final, April Fool!
and a registry holding Active and Final, the non-member status is
logged and has no row, while Final has exactly one row with count 2. -/
theorem claim_c4_pep_mismatch_filtering_witness :
    (mismatchMsg "April Fool!" ∈
      (pepTable expectedC1 ["Active", "Final", "Final", "April Fool!"]).2 ∧
     (statusRows expectedC1
        ["Active", "Final", "Final", "April Fool!"]).filter
        (fun r => r.1 = Cell.str "April Fool!") = []) ∧
    (statusRows expectedC1
      ["Active", "Final", "Final", "April Fool!"]).filter
      (fun r => r.1 = Cell.str "Final") =
      [(Cell.str "Final", Cell.nat 2)] :=
  ⟨(claim_c4_pep_mismatch_filtering expectedC1
      ["Active", "Final", "Final", "April Fool!"] "April Fool!"
      (by decide)).1 (by decide),
    (claim_c4_pep_mismatch_filtering expectedC1
      ["Active", "Final", "Final", "April Fool!"] "Final"
      (by decide)).2.1 (by decide)⟩

/-- C9: a pep run that fetches the index but accumulates no statuses
still returns [("Status","Quantity"), ("Total",0)] (with no mismatch
logs), and in every successfully returned pep table the header row is
first and the ("Total", _) row is last. -/
theorem claim_c9_pep_empty_results :
    (∀ (E : List (String × List String)) (fetch : String → Option PepPage)
      (urljoin : String → String → String) (page : PepPage)
      (sec : PepSection) (cells : List PepCell),
      fetch PEP_URL = Option.some page →
      page.tableIndex = Option.some sec →
      sec.tbody = Option.some cells →
      (∀ c ∈ cells, ∃ h, c.aHref = Option.some h ∧
        fetch (urljoin PEP_URL h) = Option.none) →
      pep E fetch urljoin = Except.ok (Option.some
        ([(Cell.str "Status", Cell.str "Quantity"),
          (Cell.str "Total", Cell.nat 0)], []))) ∧
    (∀ (E : List (String × List String)) (fetch : String → Option PepPage)
      (urljoin : String → String → String)
      (x : List (Cell × Cell) × List String),
      pep E fetch urljoin = Except.ok (Option.some x) →
      x.1.head? = Option.some (Cell.str "Status", Cell.str "Quantity") ∧
      ∃ n, x.1.getLast? = Option.some (Cell.str "Total", Cell.nat n)) := by
  constructor
  · intro E fetch urljoin page sec cells h1 h2 h3 hfail
    have hok : ∀ c ∈ cells, cellOk fetch urljoin c = true := by
      intro c hc
      obtain ⟨h, hh, hf⟩ := hfail c hc
      simp [cellOk, hh, hf]
    have hnone : cells.filterMap (cellStatus fetch urljoin) = [] := by
      rw [List.filterMap_eq_nil_iff]
      intro c hc
      obtain ⟨h, hh, hf⟩ := hfail c hc
      simp [cellStatus, hh, hf]
    rw [pep_eq E fetch urljoin page sec cells h1 h2 h3 hok, hnone]
    rfl
  · intro E fetch urljoin x hx
    obtain ⟨results, rfl⟩ := pep_ok_inv E fetch urljoin x hx
    rw [pepTable_eq]
    constructor
    · rfl
    · refine ⟨pepTotal E results, ?_⟩
      have : (Cell.str "Status", Cell.str "Quantity") ::
          statusRows E results ++
            [(Cell.str "Total", Cell.nat (pepTotal E results))] =
          ((Cell.str "Status", Cell.str "Quantity") ::
            statusRows E results) ++
            [(Cell.str "Total", Cell.nat (pepTotal E results))] := by
        simp
      rw [this, List.getLast?_concat]

/-- Witness for C9: the empty-extraction conjunct applied to an index
with one numeric cell whose detail fetch fails, and the shape conjunct
applied to its result. -/
theorem claim_c9_pep_empty_results_witness :
    pep expectedC1 pepFetchC9 ujConcat = Except.ok (Option.some
      ([(Cell.str "Status", Cell.str "Quantity"),
        (Cell.str "Total", Cell.nat 0)], [])) :=
  claim_c9_pep_empty_results.1 expectedC1 pepFetchC9 ujConcat
    ⟨Option.some ⟨Option.some [⟨Option.some "pep-0001/"⟩]⟩, Option.none⟩
    ⟨Option.some [⟨Option.some "pep-0001/"⟩]⟩
    [⟨Option.some "pep-0001/"⟩]
    rfl rfl rfl
    (by
      intro c hc
      simp only [List.mem_singleton] at hc
      subst hc
      exact ⟨"pep-0001/", rfl, rfl⟩)

/-- C3: a fetch failure for a single what's-new article does not abort
the run: the returned table is the header followed by exactly the rows
of the articles whose fetch and extraction succeeded, in document
order, with no row for any failed article (`articleRow` is `none`
exactly on the failed fetches, and `filterMap` drops them). -/
theorem claim_c3_whats_new_skips_failed_fetch
    (fetch : String → Option WnPage) (urljoin : String → String → String)
    (page : WnPage) (md : WnMainDiv) (secs : List WnSection)
    (h1 : fetch (urljoin MAIN_DOC_URL "whatsnew/") = Option.some page)
    (h2 : page.mainDiv = Option.some md)
    (h3 : md.divWithUl = Option.some secs)
    (hok : ∀ s ∈ secs,
      secOk fetch urljoin (urljoin MAIN_DOC_URL "whatsnew/") s = true) :
    whats_new fetch urljoin =
      Except.ok (Option.some
        (("Ссылка на статью", "Заголовок", "Редактор, Автор") ::
          secs.filterMap
            (articleRow fetch urljoin (urljoin MAIN_DOC_URL "whatsnew/")))) ∧
    (∀ sec ∈ secs, ∀ h, sec.aHref = Option.some h →
      fetch (urljoin (urljoin MAIN_DOC_URL "whatsnew/") h) = Option.none →
      articleRow fetch urljoin (urljoin MAIN_DOC_URL "whatsnew/") sec =
        Option.none) := by
  refine ⟨whats_new_eq fetch urljoin page md secs h1 h2 h3 hok, ?_⟩
  intro sec _ h hh hf
  simp [articleRow, hh, hf]

/-- Witness for C3: the concrete scenario with three articles where
the middle article's fetch fails; the returned table has exactly the
two successful rows after the header. -/
theorem claim_c3_whats_new_skips_failed_fetch_witness :
    whats_new wnFetchC3 ujConcat =
      Except.ok (Option.some
        [("Ссылка на статью", "Заголовок", "Редактор, Автор"),
          ("https://docs.python.org/3/whatsnew/3.10.html",
            "Whatʼs New In Python 3.10", "Editor Pablo"),
          ("https://docs.python.org/3/whatsnew/3.12.html",
            "Whatʼs New In Python 3.12", "Editor Adam")]) :=
  (claim_c3_whats_new_skips_failed_fetch wnFetchC3 ujConcat
    ⟨Option.some ⟨Option.some
      [⟨Option.some "3.10.html"⟩, ⟨Option.some "3.11.html"⟩,
        ⟨Option.some "3.12.html"⟩]⟩, Option.none, Option.none⟩
    ⟨Option.some
      [⟨Option.some "3.10.html"⟩, ⟨Option.some "3.11.html"⟩,
        ⟨Option.some "3.12.html"⟩]⟩
    [⟨Option.some "3.10.html"⟩, ⟨Option.some "3.11.html"⟩,
      ⟨Option.some "3.12.html"⟩]
    rfl rfl rfl (by decide)).1.trans (by rfl)

/-- C5 counterexample: on a one-article overview whose article page
fetches successfully but has no `h1` tag, `whats_new` aborts with the
fatal `find_tag` error instead of skipping the item and returning the
accumulated rows (which would be just the header row). -/
theorem claim_c5_counterexample :
    whats_new wnFetchC5 ujConcat =
      Except.error "ParserFindTagException" ∧
    whats_new wnFetchC5 ujConcat ≠
      Except.ok (Option.some
        [("Ссылка на статью", "Заголовок", "Редактор, Автор")]) := by
  refine ⟨rfl, ?_⟩
  intro h
  rw [show whats_new wnFetchC5 ujConcat =
    Except.error "ParserFindTagException" from rfl] at h
  exact Except.noConfusion h

/-- C5 amended: inside a per-item loop body, only fetch failures are
logged-and-skipped; a missing-structure case (a required tag absent on
one article or PEP detail page) raises the fatal `find_tag` error and
aborts the whole handler rather than skipping that item. -/
theorem claim_c5_amended :
    (∀ (fetch : String → Option PepPage)
      (urljoin : String → String → String) (c : PepCell)
      (rest : List PepCell) (acc : List String) (h : String),
      c.aHref = Option.some h →
      fetch (urljoin PEP_URL h) = Option.none →
      pepLoop fetch urljoin (c :: rest) acc =
        pepLoop fetch urljoin rest acc) ∧
    (∀ (fetch : String → Option WnPage)
      (urljoin : String → String → String) (base : String)
      (sec : WnSection) (rest : List WnSection)
      (acc : List (String × String × String)) (h : String) (p : WnPage),
      sec.aHref = Option.some h →
      fetch (urljoin base h) = Option.some p →
      p.h1 = Option.none →
      whatsNewLoop fetch urljoin base (sec :: rest) acc =
        Except.error "ParserFindTagException") ∧
    (∀ (fetch : String → Option PepPage)
      (urljoin : String → String → String) (c : PepCell)
      (rest : List PepCell) (acc : List String) (h : String) (p : PepPage),
      c.aHref = Option.some h →
      fetch (urljoin PEP_URL h) = Option.some p →
      p.dl = Option.none →
      pepLoop fetch urljoin (c :: rest) acc =
        Except.error "ParserFindTagException") := by
  refine ⟨?_, ?_, ?_⟩
  · intro fetch urljoin c rest acc h hh hf
    rw [pepLoop]
    simp [hh, find_tag, get_response, hf, Bind.bind, Except.bind]
  · intro fetch urljoin base sec rest acc h p hh hf hh1
    rw [whatsNewLoop]
    simp [hh, find_tag, get_response, hf, hh1, Bind.bind, Except.bind]
  · intro fetch urljoin c rest acc h p hh hf hdl
    rw [pepLoop]
    simp [hh, find_tag, get_response, hf, hdl, Bind.bind, Except.bind]

/-- Witness for the amended C5: the abort conjunct applied to the
concrete one-article overview with a missing `h1`. -/
theorem claim_c5_amended_witness :
    whatsNewLoop wnFetchC5 ujConcat "https://docs.python.org/3/whatsnew/"
      [⟨Option.some "3.11.html"⟩]
      [("Ссылка на статью", "Заголовок", "Редактор, Автор")] =
      Except.error "ParserFindTagException" :=
  claim_c5_amended.2.1 wnFetchC5 ujConcat
    "https://docs.python.org/3/whatsnew/" ⟨Option.some "3.11.html"⟩ []
    [("Ссылка на статью", "Заголовок", "Редактор, Автор")] "3.11.html"
    ⟨Option.none, Option.none, Option.some "Editor Pablo"⟩ rfl rfl rfl

/-- C2: every row produced by `latest_versions` comes from `versionRow`;
an entry whose text does not match the pattern yields (href, full text,
""); an entry whose text has the canonical shape
`Python <digit>.<digits> (<status>)` (no newline in the status) yields
(href, the matched major.minor text, the parenthesized text). -/
theorem claim_c2_latest_versions_rows :
    (∀ (fetch : String → Option MainPage)
      (rows : List (String × String × String)),
      (latest_versions fetch).1 = Except.ok (Option.some rows) →
      ∃ a_tags : List ATag,
        rows = ("Ссылка на документацию", "Версия", "Статус") ::
          a_tags.map versionRow) ∧
    (∀ a : ATag, searchPython a.text.toList = Option.none →
      versionRow a = (a.href, a.text, "")) ∧
    (∀ (href : String) (d : Char) (ds : List Char) (st : String),
      d.isDigit = true → ds ≠ [] → (∀ c ∈ ds, c.isDigit = true) →
      '\n' ∉ st.toList →
      versionRow ⟨href, String.mk ("Python ".toList ++ d :: '.' ::
          (ds ++ ' ' :: '(' :: (st.toList ++ [')'])))⟩ =
        (href, String.mk (d :: '.' :: ds), st)) := by
  refine ⟨latest_versions_ok_inv, ?_, ?_⟩
  · intro a hnone
    rw [versionRow, hnone]
  · intro href d ds st hd hds hall hnl
    have hm := matchPythonAt_canonical d ds st.toList hd hds hall hnl
    have hcons : "Python ".toList ++ d :: '.' ::
        (ds ++ ' ' :: '(' :: (st.toList ++ [')'])) =
        'P' :: ("ython ".toList ++ d :: '.' ::
          (ds ++ ' ' :: '(' :: (st.toList ++ [')']))) := rfl
    have hsearch : searchPython ("Python ".toList ++ d :: '.' ::
        (ds ++ ' ' :: '(' :: (st.toList ++ [')']))) =
        Option.some (String.mk (d :: '.' :: ds), String.mk st.toList) := by
      rw [hcons]
      refine searchPython_cons _ _ _ ?_
      rw [← hcons]
      exact hm
    rw [versionRow]
    have htl : (String.mk ("Python ".toList ++ d :: '.' ::
        (ds ++ ' ' :: '(' :: (st.toList ++ [')'])))).toList =
        "Python ".toList ++ d :: '.' ::
          (ds ++ ' ' :: '(' :: (st.toList ++ [')'])) := rfl
    rw [htl, hsearch]
    rfl

/-- Witness for C2: the canonical-match conjunct applied to the entry
text `Python 3.12 (stable)`. -/
theorem claim_c2_latest_versions_rows_witness :
    ('3').isDigit = true ∧
    versionRow ⟨"https://docs.python.org/3.12/",
        String.mk ("Python ".toList ++ '3' :: '.' ::
          (['1', '2'] ++ ' ' :: '(' :: ("stable".toList ++ [')'])))⟩ =
      ("https://docs.python.org/3.12/",
        String.mk ('3' :: '.' :: ['1', '2']), "stable") :=
  ⟨by decide,
    claim_c2_latest_versions_rows.2.2 "https://docs.python.org/3.12/"
      '3' ['1', '2'] "stable" (by decide) (by decide) (by decide)
      (by decide)⟩

/-- C6: when no sidebar `<ul>` contains the `"All versions"` marker,
`latest_versions` raises the uncaught exception (the `for ... else`
`raise`), returning no partial or empty table. -/
theorem claim_c6_latest_versions_fatal
    (fetch : String → Option MainPage) (page : MainPage)
    (uls : List SidebarUl)
    (h1 : fetch MAIN_DOC_URL = Option.some page)
    (h2 : page.sidebar = Option.some uls)
    (hno : ∀ ul ∈ uls,
      hasInfix "All versions".toList ul.text.toList = false) :
    (latest_versions fetch).1 = Except.error "Ничего не нашлось" := by
  rw [latest_versions]
  simp only [get_response, h1, h2, find_tag, Bind.bind, Except.bind,
    findAllVersionsUl_error uls hno]

/-- Witness for C6: a sidebar with two lists, neither containing the
marker. -/
theorem claim_c6_latest_versions_fatal_witness :
    (latest_versions lvFetchC6).1 = Except.error "Ничего не нашлось" :=
  claim_c6_latest_versions_fatal lvFetchC6
    ⟨Option.some
      [⟨"Docs by version",
        [⟨"https://docs.python.org/3.12/", "Python 3.12 (stable)"⟩]⟩,
        ⟨"Other resources", []⟩]⟩
    [⟨"Docs by version",
      [⟨"https://docs.python.org/3.12/", "Python 3.12 (stable)"⟩]⟩,
      ⟨"Other resources", []⟩]
    rfl rfl (by decide)

/-- C7: on a main page whose sidebar contains a (first) `<ul>` with the
`"All versions"` marker, `latest_versions` returns the header followed
by exactly one row per `<a>` of that list, in list order, and the
request trace has length one. -/
theorem claim_c7_latest_versions_shape
    (fetch : String → Option MainPage) (page : MainPage)
    (pre : List SidebarUl) (ul : SidebarUl) (post : List SidebarUl)
    (h1 : fetch MAIN_DOC_URL = Option.some page)
    (h2 : page.sidebar = Option.some (pre ++ ul :: post))
    (hpre : ∀ u ∈ pre,
      hasInfix "All versions".toList u.text.toList = false)
    (hul : hasInfix "All versions".toList ul.text.toList = true) :
    latest_versions fetch =
      (Except.ok (Option.some
        (("Ссылка на документацию", "Версия", "Статус") ::
          ul.aTags.map versionRow)), [MAIN_DOC_URL]) ∧
    (("Ссылка на документацию", "Версия", "Статус") ::
      ul.aTags.map versionRow).length = 1 + ul.aTags.length ∧
    (latest_versions fetch).2.length = 1 := by
  refine ⟨?_, by simp [Nat.add_comm], rfl⟩
  rw [latest_versions]
  simp only [get_response, h1, h2, find_tag, Bind.bind, Except.bind,
    findAllVersionsUl_first pre ul post hpre hul]

/-- Witness for C7: the well-formed three-link sidebar; the rows
evaluate to the split version/status fields. -/
theorem claim_c7_latest_versions_shape_witness :
    latest_versions lvFetchC7 =
      (Except.ok (Option.some
        [("Ссылка на документацию", "Версия", "Статус"),
          ("https://docs.python.org/3.12/", "3.12", "stable"),
          ("https://docs.python.org/3.9/", "3.9", "security-fixes"),
          ("https://www.python.org/doc/versions/", "All versions", "")]),
        ["https://docs.python.org/3/"]) :=
  (claim_c7_latest_versions_shape lvFetchC7
    ⟨Option.some
      [⟨"Docs by version Python 3.12 (stable) All versions",
        [⟨"https://docs.python.org/3.12/", "Python 3.12 (stable)"⟩,
          ⟨"https://docs.python.org/3.9/", "Python 3.9 (security-fixes)"⟩,
          ⟨"https://www.python.org/doc/versions/", "All versions"⟩]⟩]⟩
    []
    ⟨"Docs by version Python 3.12 (stable) All versions",
      [⟨"https://docs.python.org/3.12/", "Python 3.12 (stable)"⟩,
        ⟨"https://docs.python.org/3.9/", "Python 3.9 (security-fixes)"⟩,
        ⟨"https://www.python.org/doc/versions/", "All versions"⟩]⟩
    []
    rfl rfl (by decide) (by decide)).1.trans (by rfl)

/-- C8: when both fetches succeed, the download handler creates the
downloads directory and writes exactly one file, named by the text
after the last `/` of the resolved archive URL, with content equal to
the fetched response body; the handler returns no rows. -/
theorem claim_c8_download_writes_file
    (fetch : String → Option DlResponse)
    (urljoin : String → String → String)
    (resp : DlResponse) (tbl : DocutilsTable) (href : String)
    (resp2 : DlResponse)
    (h1 : fetch (urljoin MAIN_DOC_URL "download.html") = Option.some resp)
    (h2 : resp.soup.tableTag = Option.some tbl)
    (h3 : tbl.pdfA4Href = Option.some href)
    (h4 : fetch (urljoin (urljoin MAIN_DOC_URL "download.html") href) =
      Option.some resp2) :
    download fetch urljoin = Except.ok (Option.none,
      ⟨true,
        [((splitOnChar '/'
            (urljoin (urljoin MAIN_DOC_URL "download.html") href)).getLastD
            "", resp2.content)]⟩) := by
  rw [download]
  simp only [get_response, h1, h2, h3, h4, find_tag, Bind.bind,
    Except.bind]

/-- Witness for C8: the concrete download scenario; the file is
literally named `archive-3.12.pdf-a4.zip` and holds the fetched
bytes. -/
theorem claim_c8_download_writes_file_witness :
    download dlFetchC8 ujRoot = Except.ok (Option.none,
      ⟨true, [("archive-3.12.pdf-a4.zip", [80, 75, 3, 4])]⟩) :=
  (claim_c8_download_writes_file dlFetchC8 ujRoot
    ⟨⟨Option.some ⟨Option.some "archive/archive-3.12.pdf-a4.zip"⟩⟩, []⟩
    ⟨Option.some "archive/archive-3.12.pdf-a4.zip"⟩
    "archive/archive-3.12.pdf-a4.zip"
    ⟨⟨Option.none⟩, [80, 75, 3, 4]⟩
    rfl rfl rfl rfl).trans (by rfl)

/-- C10: the downloads directory is created before the archive fetch,
so when the archive fetch fails the directory exists, no file is
written, and the handler returns no rows. -/
theorem claim_c10_download_dir_effect
    (fetch : String → Option DlResponse)
    (urljoin : String → String → String)
    (resp : DlResponse) (tbl : DocutilsTable) (href : String)
    (h1 : fetch (urljoin MAIN_DOC_URL "download.html") = Option.some resp)
    (h2 : resp.soup.tableTag = Option.some tbl)
    (h3 : tbl.pdfA4Href = Option.some href)
    (h4 : fetch (urljoin (urljoin MAIN_DOC_URL "download.html") href) =
      Option.none) :
    download fetch urljoin =
      Except.ok (Option.none, ⟨true, []⟩) := by
  rw [download]
  simp only [get_response, h1, h2, h3, h4, find_tag, Bind.bind,
    Except.bind]

/-- Witness for C10: the concrete downloads page with a failing archive
fetch. -/
theorem claim_c10_download_dir_effect_witness :
    download dlFetchC10 ujRoot =
      Except.ok (Option.none, ⟨true, []⟩) :=
  claim_c10_download_dir_effect dlFetchC10 ujRoot
    ⟨⟨Option.some ⟨Option.some "archive/archive-3.12.pdf-a4.zip"⟩⟩, []⟩
    ⟨Option.some "archive/archive-3.12.pdf-a4.zip"⟩
    "archive/archive-3.12.pdf-a4.zip"
    rfl rfl rfl rfl

end BsParser
